import Mathlib

/-!
Verification development for the ow-bloodflow-app repository.

This file gives a shallow embedding, in Lean 4, of the parts of the
program that the specification's claims are about:

* the histogram packet codec and the streaming decoder loop
  (`src/processing/data_processing.py`),
* the camera-configuration worker, the laser-power write transaction,
  the safety-status poller, the connection-state derivation and the
  subject-id normalizer (`src/motion_connector.py`).

Conventions of the embedding:

* Byte buffers (Python `bytes` / `memoryview` / `bytearray`) become the
  structure `ByteBuf`: an index function `Nat → Nat` together with a
  size.  All reads the decoder performs are in bounds for buffers that
  pass its guards, so the out-of-range default never influences results
  on real inputs.
* Machine integers are `Nat` with explicit masking (`&&& 0xFFFF`, etc.)
  where the source wraps.
* `float` values that the claims never compute with (the `f32`
  temperature, the timestamp seconds) are carried as their raw integer
  bits / milliseconds.
* Fallible code returns `Except String`, mirroring the `ValueError`
  messages raised by the source.
-/

namespace OwBloodflow

set_option maxRecDepth 100000

/-! ### Byte buffers -/

/-- A byte buffer: `data i` is the byte at index `i` (meaningful for
`i < size`).  Models Python `bytes`/`memoryview` contents. -/
structure ByteBuf where
  data : Nat → Nat
  size : Nat

/-- `buf[off:]` — the suffix view of a buffer. -/
def byteDrop (b : ByteBuf) (off : Nat) : ByteBuf :=
  ⟨fun i => b.data (off + i), b.size - off⟩

/-- Concatenation of two buffers (used to assemble test streams). -/
def byteCat (a b : ByteBuf) : ByteBuf :=
  ⟨fun i => if i < a.size then a.data i else b.data (i - a.size), a.size + b.size⟩

/-- Little-endian `u16` read at `off` (`struct.Struct("<H").unpack_from`). -/
def readU16 (b : ByteBuf) (off : Nat) : Nat :=
  b.data off + 256 * b.data (off + 1)

/-- Little-endian `u32` read at `off` (`struct.Struct("<I").unpack_from`). -/
def readU32 (b : ByteBuf) (off : Nat) : Nat :=
  b.data off + 256 * b.data (off + 1) + 65536 * b.data (off + 2) +
    16777216 * b.data (off + 3)

/-! ### Constants from `data_processing.py` -/

def HISTO_SIZE_WORDS : Nat := 1024
def HISTO_BYTES : Nat := HISTO_SIZE_WORDS * 4
def PACKET_HEADER_SIZE : Nat := 6
def PACKET_FOOTER_SIZE : Nat := 3
def HISTO_BLOCK_SIZE : Nat := 1 + 1 + HISTO_BYTES + 4 + 1
def TIMESTAMP_SIZE : Nat := 4
def MIN_PACKET_SIZE : Nat := PACKET_HEADER_SIZE + PACKET_FOOTER_SIZE + HISTO_BLOCK_SIZE

def SOF : Nat := 0xAA
def SOH : Nat := 0xFF
def EOH : Nat := 0xEE
def EOFByte : Nat := 0xDD

/-! ### CRC16 (`binascii.crc_hqx(buf, 0xFFFF)`, the fallback `_crc16`)

CRC-CCITT/XMODEM: polynomial `0x1021`, MSB first, no reflection, the
initial value is the second argument (`0xFFFF` at the call site). -/

/-- One shift step of the CRC-CCITT register: shift left and, when the
top bit was set, xor in the polynomial.  Written branchlessly (the xor
mask is `top-bit × 0x1021`), which is the same function as the usual
`if crc & 0x8000` formulation. -/
def crcShift (crc : Nat) : Nat :=
  ((crc <<< 1) ^^^ (((crc >>> 15) &&& 1) * 0x1021)) &&& 0xFFFF

/-- Feed one byte into the CRC register. -/
def crcByte (crc b : Nat) : Nat :=
  crcShift^[8] (crc ^^^ ((b &&& 0xFF) <<< 8))

/-- `seqNat n f = f n`, with `n` destructured first.  Evaluating through
this forces the kernel to reduce `n` to a literal before continuing, so
long accumulator folds reduce iteratively instead of building a tower of
thunks. -/
def seqNat (n : Nat) (f : Nat → α) : α :=
  match n with
  | 0 => f 0
  | k + 1 => f (k + 1)

theorem seqNat_eq (n : Nat) (f : Nat → α) : seqNat n f = f n := by
  cases n <;> rfl

/-- Fold the CRC over the `cnt` bytes starting at index `i` (both the
index and the register pass through `seqNat`, keeping reduction
iterative). -/
def crcFold (b : ByteBuf) : Nat → Nat → Nat → Nat
  | 0, _, crc => crc
  | cnt + 1, i, crc =>
    seqNat i fun i' => seqNat (crcByte crc (b.data i')) (crcFold b cnt (i' + 1))

/-- CRC16 of the first `n` bytes of a buffer, initial value `0xFFFF`:
models `_crc16(mv[:n])`. -/
def crc16Range (b : ByteBuf) (n : Nat) : Nat :=
  crcFold b n 0 0xFFFF

/-- `crc16Range` is the plain left fold of `crcByte` over the first `n`
bytes (the shape of the source's byte-by-byte CRC). -/
theorem crc16Range_eq_foldl (b : ByteBuf) (n : Nat) :
    crc16Range b n = (List.range n).foldl (fun c i => crcByte c (b.data i)) 0xFFFF := by
  have key : ∀ cnt i crc, crcFold b cnt i crc =
      (List.range' i cnt).foldl (fun c j => crcByte c (b.data j)) crc := by
    intro cnt
    induction cnt with
    | zero => intro i crc; rfl
    | succ c ih =>
      intro i crc
      rw [List.range'_succ, List.foldl_cons, crcFold, seqNat_eq, seqNat_eq, ih]
  rw [crc16Range, key, List.range_eq_range']

/-! ### The packet codec: `DataProcessor.parse_histogram_packet` -/

/-- One decoded histogram block: the 1024 histogram words (the last one
masked to its low 24 bits), the frame id unpacked from the top 8 bits of
the last word, and the raw bits of the `f32` temperature. -/
structure BlockRec where
  hist : List Nat
  frameId : Nat
  tempBits : Nat
  deriving DecidableEq, Repr

/-- Insert-or-update for an association list, keeping the position of
the first insertion: the behaviour of a Python `dict` under key
assignment (insertion order preserved, updates in place). -/
def upsert (l : List (Nat × BlockRec)) (k : Nat) (v : BlockRec) :
    List (Nat × BlockRec) :=
  match l with
  | [] => [(k, v)]
  | (k', v') :: t => if k' = k then (k, v) :: t else (k', v') :: upsert t k v

/-- The body of the block-parsing `while` loop of
`parse_histogram_packet`, at block offset `off`:
check SOH, read `cam_id`, the 1024 `u32` words, the temperature bits,
check EOH, then unpack `frame_id` from the top 8 bits of the last word
and mask the stored last word to its low 24 bits. -/
def parseBlock (pkt : ByteBuf) (off : Nat) : Except String (Nat × BlockRec) :=
  if pkt.data off ≠ SOH then .error "Missing SOH"
  else
    let cam := pkt.data (off + 1)
    let words := (List.range HISTO_SIZE_WORDS).map fun j => readU32 pkt (off + 2 + 4 * j)
    let tempBits := readU32 pkt (off + 2 + HISTO_BYTES)
    if pkt.data (off + 2 + HISTO_BYTES + 4) ≠ EOH then .error "Missing EOH"
    else
      let lastWord := words.getD (HISTO_SIZE_WORDS - 1) 0
      let frameId := (lastWord >>> 24) &&& 0xFF
      let hist := words.set (HISTO_SIZE_WORDS - 1) (lastWord &&& 0xFFFFFF)
      .ok (cam, ⟨hist, frameId, tempBits⟩)

/-- The block loop itself.  When the payload-length checks of the caller
have passed, the source's `while off < payload_end` loop executes exactly
once per block, at offsets `start + i * HISTO_BLOCK_SIZE`; `idxs` is
instantiated with `List.range nBlocks`.  The three parallel dicts of the
source (`hists`, `ids`, `temps`) are updated together at the same key, so
they are carried as one association list of `BlockRec`. -/
def parseBlocks (pkt : ByteBuf) (start : Nat) (idxs : List Nat)
    (acc : List (Nat × BlockRec)) : Except String (List (Nat × BlockRec)) :=
  match idxs with
  | [] => .ok acc
  | i :: rest =>
    match parseBlock pkt (start + i * HISTO_BLOCK_SIZE) with
    | .error e => .error e
    | .ok (cam, rec) => parseBlocks pkt start rest (upsert acc cam rec)

/-- A decoded packet: the per-camera blocks in dict insertion order, the
optional timestamp in milliseconds, and the number of bytes consumed
(the declared packet length). -/
structure PacketResult where
  blocks : List (Nat × BlockRec)
  timestampMs : Option Nat
  consumed : Nat
  deriving DecidableEq, Repr

/-- `DataProcessor.parse_histogram_packet`, check for check.

The source raises `ValueError`s; here each raise is an `.error` with the
same message.  `payload_len = pkt_len - 9` is computed in `Nat`; for
`pkt_len < 9` Python's negative value and the truncated value both take
the `"Packet payload too small"` branch, and on every later path the
subtraction is exact.  The final CRC is computed over `mv[:off-3]` where
`off = pkt_len - 1` at that point, i.e. over the first `pkt_len - 4`
bytes. -/
def parse_histogram_packet (pkt : ByteBuf) : Except String PacketResult :=
  if pkt.size < MIN_PACKET_SIZE then .error "Packet too small"
  else
    let sof := pkt.data 0
    let pktType := pkt.data 1
    let pktLen := readU32 pkt 2
    if sof ≠ SOF ∨ pktType ≠ 0x00 then .error "Bad header"
    else if pkt.size < pktLen then .error "Truncated packet"
    else
      let payloadLen := pktLen - (PACKET_HEADER_SIZE + PACKET_FOOTER_SIZE)
      if payloadLen < HISTO_BLOCK_SIZE then .error "Packet payload too small"
      else
        let hasTs := payloadLen % HISTO_BLOCK_SIZE = TIMESTAMP_SIZE
        if ¬hasTs ∧ payloadLen % HISTO_BLOCK_SIZE ≠ 0 then .error "Packet length mismatch"
        else
          let tsMs := if hasTs then some (readU32 pkt PACKET_HEADER_SIZE) else none
          let skip := if hasTs then TIMESTAMP_SIZE else 0
          let nBlocks := (payloadLen - skip) / HISTO_BLOCK_SIZE
          match parseBlocks pkt (PACKET_HEADER_SIZE + skip) (List.range nBlocks) [] with
          | .error e => .error e
          | .ok blocks =>
            let crcExpected := readU16 pkt (pktLen - PACKET_FOOTER_SIZE)
            if pkt.data (pktLen - 1) ≠ EOFByte then .error "Missing EOF"
            else if crc16Range pkt (pktLen - 4) ≠ crcExpected then .error "CRC mismatch"
            else .ok ⟨blocks, tsMs, pktLen⟩

/-! ### Rows and the streaming decoder loop (`parse_stream_to_csv`) -/

/-- One CSV row, as written by `parse_stream_to_csv` /
`process_bin_file`: `[cam_id, frame_id, ts_val, *hist, temp, sum]`.
`ts_val` is `timestamp_sec` or `0.0`; it is carried in milliseconds.
`sum` is `int(hist.sum(dtype=np.uint64))`, a wrapping 64-bit sum. -/
structure Row where
  cam : Nat
  frameId : Nat
  tsMs : Nat
  hist : List Nat
  tempBits : Nat
  sum : Nat
  deriving DecidableEq, Repr

/-- The rows a successfully decoded packet contributes, one per camera
block in dict insertion order. -/
def packetRows (res : PacketResult) : List Row :=
  res.blocks.map fun (cam, rec) =>
    ⟨cam, rec.frameId, res.timestampMs.getD 0, rec.hist, rec.tempBits,
      rec.hist.sum % 2 ^ 64⟩

/-- The resync signature `b"\xAA\x00\x41"` occurs (fully inside the
buffer) at position `k`. -/
def sigAt (b : ByteBuf) (k : Nat) : Prop :=
  k + 3 ≤ b.size ∧ b.data k = 0xAA ∧ b.data (k + 1) = 0x00 ∧ b.data (k + 2) = 0x41

instance (b : ByteBuf) (k : Nat) : Decidable (sigAt b k) := by
  unfold sigAt
  infer_instance

/-- `bytearray.find(b"\xAA\x00\x41", start)`: the first index `i ≥ start`
with the 3-byte resync signature fully inside the buffer, `none` for
Python's `-1`.  `cnt` counts the candidate positions left to scan. -/
def findSigFrom (b : ByteBuf) (cnt i : Nat) : Option Nat :=
  match cnt with
  | 0 => none
  | c + 1 =>
    if sigAt b i then some i
    else findSigFrom b c (i + 1)

/-- `buffer.find(pat, start)` over the whole buffer. -/
def findSig (b : ByteBuf) (start : Nat) : Option Nat :=
  findSigFrom b b.size start

/-- The inner `while offset + MIN_PACKET_SIZE <= len(buffer)` loop of
`parse_stream_to_csv`, on an accumulated buffer: on success append the
packet's rows and advance by `consumed`; on a decode error advance one
byte and jump to the resync signature, or stop (waiting for more input)
when it is absent.  The offset strictly increases each iteration, so any
`fuel > buf.size` is enough for the loop to run to its real exit; the
result is the written rows and the final offset (the prefix the source
then deletes from the accumulator). -/
def drainLoop (buf : ByteBuf) : Nat → Nat → List Row × Nat
  | 0, off => ([], off)
  | fuel + 1, off =>
    if off + MIN_PACKET_SIZE ≤ buf.size then
      match parse_histogram_packet (byteDrop buf off) with
      | .ok res =>
        let pr := drainLoop buf fuel (off + res.consumed)
        (packetRows res ++ pr.1, pr.2)
      | .error _ =>
        match findSig buf (off + 1) with
        | some nxt => drainLoop buf fuel nxt
        | none => ([], off + 1)
    else ([], off)

/-- All rows the streaming decoder writes for a stream delivered as one
accumulated buffer (queue drained, stop set). -/
def parseStreamRows (buf : ByteBuf) : List Row :=
  (drainLoop buf (buf.size + 1) 0).1

/-! ### Concrete packets (encoder side, for witnesses/counterexamples) -/

/-- Fill the two CRC bytes of an otherwise complete packet buffer with
the CRC the decoder checks: CRC16 over the first `size - 4` bytes,
little-endian at `size - 3`. -/
def withCrc (b : ByteBuf) : ByteBuf :=
  ⟨fun i =>
    if i = b.size - 3 then crc16Range b (b.size - 4) % 256
    else if i = b.size - 2 then crc16Range b (b.size - 4) / 256
    else b.data i, b.size⟩

/-- Length of an `n`-block packet without timestamp: `9 + n * 4103`. -/
def zpLen (n : Nat) : Nat :=
  PACKET_HEADER_SIZE + n * HISTO_BLOCK_SIZE + PACKET_FOOTER_SIZE

/-- Byte `k` (0-based inside a block) of an all-zero histogram block for
camera `cam` whose last histogram word is `lastWord`. -/
def zeroBlockByte (cam lastWord k : Nat) : Nat :=
  if k = 0 then SOH
  else if k = 1 then cam
  else if k = 4094 then lastWord % 256
  else if k = 4095 then lastWord / 256 % 256
  else if k = 4096 then lastWord / 65536 % 256
  else if k = 4097 then lastWord / 16777216 % 256
  else if k = 4102 then EOH
  else 0

/-- The bytes of an `n`-block timestamp-free packet before its CRC is
filled in: header, `n` all-zero histogram blocks for cameras
`0, …, n-1` (block 0's last histogram word is `lastWord0`), zero CRC
placeholder, EOF. -/
def zeroPacketRaw (n lastWord0 : Nat) : ByteBuf :=
  ⟨fun i =>
    if i = 0 then SOF
    else if i = 1 then 0x00
    else if i = 2 then zpLen n % 256
    else if i = 3 then zpLen n / 256 % 256
    else if i = 4 then zpLen n / 65536 % 256
    else if i = 5 then zpLen n / 16777216 % 256
    else if i < PACKET_HEADER_SIZE + n * HISTO_BLOCK_SIZE then
      zeroBlockByte ((i - PACKET_HEADER_SIZE) / HISTO_BLOCK_SIZE)
        (if (i - PACKET_HEADER_SIZE) / HISTO_BLOCK_SIZE = 0 then lastWord0 else 0)
        ((i - PACKET_HEADER_SIZE) % HISTO_BLOCK_SIZE)
    else if i = zpLen n - 1 then EOFByte
    else 0, zpLen n⟩

/-- A valid `n`-block packet: the raw bytes with the CRC filled in. -/
def zeroPacket (n lastWord0 : Nat) : ByteBuf :=
  withCrc (zeroPacketRaw n lastWord0)

/-- The single-block packet used throughout: camera id 0, last
histogram word `0x0500002A` (frame id 5, last bin 42). -/
def pktOne : ByteBuf := zeroPacket 1 0x0500002A

/-- A second single-block valid packet, entirely zero. -/
def pktOneZero : ByteBuf := zeroPacket 1 0

/-- An 8-block valid packet; its length `32833 = 0x8041` has low byte
`0x41`, so its header starts with the resync signature `AA 00 41`. -/
def pktEight : ByteBuf := zeroPacket 8 0

/-- The decoded block an all-zero histogram block with last word `w`
yields. -/
def zpRec (w : Nat) : BlockRec :=
  ⟨(List.replicate HISTO_SIZE_WORDS 0).set (HISTO_SIZE_WORDS - 1) (w &&& 0xFFFFFF),
    (w >>> 24) &&& 0xFF, 0⟩

/-- The block dictionary `zeroPacket n lw` decodes to. -/
def zpBlocks (n lw : Nat) : List (Nat × BlockRec) :=
  (List.range n).map fun j => (j, zpRec (if j = 0 then lw else 0))

/-- The full decode result of `zeroPacket n lw`. -/
def zpResult (n lw : Nat) : PacketResult :=
  ⟨zpBlocks n lw, none, zpLen n⟩

/-- The test stream whose second packet the resync signature cannot
find: `pktOne`, 7 zero garbage bytes, `pktOneZero` (length low byte
`0x10`). -/
def streamBad : ByteBuf :=
  ⟨fun i =>
    if i < 4112 then pktOne.data i
    else if i < 4119 then 0
    else pktOneZero.data (i - 4119), 8231⟩

/-- The test stream whose second packet begins with the resync
signature: `pktOne`, 7 zero garbage bytes, `pktEight` (length
`0x8041`). -/
def streamGood : ByteBuf :=
  ⟨fun i =>
    if i < 4112 then pktOne.data i
    else if i < 4119 then 0
    else pktEight.data (i - 4119), 36952⟩

/-! ### Connection-state derivation (`motion_connector.py`)

Module-level constants and `MOTIONConnector.update_state` /
`on_connected` / `on_disconnected`. -/

def DISCONNECTED : Nat := 0
def SENSOR_CONNECTED : Nat := 1
def CONSOLE_CONNECTED : Nat := 2
def READY : Nat := 3
def RUNNING : Nat := 4

/-- The connectivity flags of the connector. -/
structure ConnFlags where
  console : Bool
  left : Bool
  right : Bool
  running : Bool
  deriving DecidableEq, Repr

/-- `MOTIONConnector.update_state`: the new `self._state`, evaluated by
the source's `if/elif` chain in order. -/
def update_state (f : ConnFlags) : Nat :=
  if ¬f.console ∧ (¬f.left ∨ ¬f.right) then DISCONNECTED
  else if f.left ∧ ¬f.console then SENSOR_CONNECTED
  else if f.console ∧ ¬f.left then CONSOLE_CONNECTED
  else if f.console ∧ f.left then READY
  else if f.console ∧ f.left ∧ f.running then RUNNING
  else DISCONNECTED

/-- A device descriptor, upper-cased. -/
inductive Descriptor
  | sensorLeft
  | sensorRight
  | console
  deriving DecidableEq, Repr

/-- Flag update of `on_connected`: `SENSOR_LEFT` sets the left flag
(first `if`); the second `if`/`elif` chain sets right or console. -/
def on_connected (f : ConnFlags) : Descriptor → ConnFlags
  | .sensorLeft => { f with left := true }
  | .sensorRight => { f with right := true }
  | .console => { f with console := true }

/-- Flag update of `on_disconnected` (one `if/elif` chain). -/
def on_disconnected (f : ConnFlags) : Descriptor → ConnFlags
  | .sensorLeft => { f with left := false }
  | .sensorRight => { f with right := false }
  | .console => { f with console := false }

/-- The initial flags of a connector with nothing attached. -/
def initialFlags : ConnFlags := ⟨false, false, false, false⟩

/-! ### Subject-id normalization (`MOTIONConnector.setSubjectId`)

Strings are carried as `List Char`.  Python's Unicode-aware
`str.upper` / `str.isalnum` are modelled on the ASCII range, which is
the range the subject-id UI produces. -/

/-- `str.upper` on one ASCII character. -/
def pyUpperChar (c : Char) : Char :=
  if 'a' ≤ c ∧ c ≤ 'z' then Char.ofNat (c.toNat - 32) else c

/-- `str.isalnum` on one ASCII character. -/
def pyIsAlnum (c : Char) : Bool :=
  ('0' ≤ c ∧ c ≤ '9') ∨ ('A' ≤ c ∧ c ≤ 'Z') ∨ ('a' ≤ c ∧ c ≤ 'z')

/-- The normal form `setSubjectId` computes for a non-empty input:
strip one leading `"ow"`, uppercase, keep alphanumerics. -/
def subjectNormalize (v : List Char) : List Char :=
  let rest := if v.take 2 = ['o', 'w'] then v.drop 2 else v
  (rest.map pyUpperChar).filter pyIsAlnum

/-- `MOTIONConnector.setSubjectId`: given the stored subject id and the
incoming value, the new stored subject id and whether
`subjectIdChanged` was emitted.  An empty value returns immediately;
otherwise the normal form is prefixed with `"ow"` and stored (with a
notification) only when it differs from the stored value. -/
def setSubjectId (stored v : List Char) : List Char × Bool :=
  if v = [] then (stored, false)
  else
    let newVal := 'o' :: 'w' :: subjectNormalize v
    if newVal ≠ stored then (newVal, true) else (stored, false)

/-! ### Laser-power configuration write (`set_laser_power_from_config`)

The method locks `_console_mutex` (a `QRecursiveMutex`), then iterates
over the loaded laser parameters writing each over I2C.  A failed write
returns `False` from inside the loop; only the success path reaches the
`unlock()`.  The model takes the list of per-write outcomes and returns
the boolean result together with the lock depth held at exit (entry
depth 0, so a balanced execution exits at depth 0). -/

/-- The `for` loop over `self.laser_params` at lock depth `d`. -/
def laserWriteLoop (d : Nat) : List Bool → Bool × Nat
  | [] => (true, d - 1)
  | w :: rest => if ¬w then (false, d) else laserWriteLoop d rest

/-- `set_laser_power_from_config`, starting unlocked: `lock()`, the
write loop, and (on the success path only) `unlock()`. -/
def set_laser_power_from_config (writes : List Bool) : Bool × Nat :=
  laserWriteLoop 1 writes

/-! ### Camera-configuration worker (`_ConfigureWorker.run`) -/

/-- A sensor side. -/
inductive Side
  | left
  | right
  deriving DecidableEq, Repr

/-- Structured stand-ins for the worker's `finished` messages. -/
inductive CfgErr
  | noError
  | emptyMasks
  | canceled
  | fpgaFailed (s : Side) (pos1 : Nat)
  | registersFailed (s : Side) (pos1 : Nat)
  deriving DecidableEq, Repr

/-- Observable events of a configuration job, in order: step attempts
(`isRegisters = false` for `program_fpga`), `progress` emissions, lock
operations on a side's mutex, and the terminal `finished` emission. -/
inductive CfgEvent
  | stepAttempt (s : Side) (pos1 : Nat) (isRegisters : Bool)
  | progress (v : Nat)
  | lock (s : Side)
  | unlock (s : Side)
  | finished (ok : Bool) (err : CfgErr)
  deriving DecidableEq, Repr

/-- `int(5 + (done / total) * 15)`: the emitted progress value.  For
every reachable `done ≤ total ≤ 32` the IEEE-double computation equals
the exact floor `5 + (15 * done) / total`, which is how it is carried
here. -/
def progressValue (done total : Nat) : Nat :=
  5 + 15 * done / total

/-- The task loop of `_ConfigureWorker.run`.  `stepOk side pos isReg`
is the success of `run_on_sensors` for one step (the source accepts a
per-side dict or a bare bool; both reduce to this success bit);
`stopAt k` is the value of `self._stop` at its `k`-th read.  Returns
the event trace of the remaining tasks. -/
def cfgTasks (stepOk : Side → Nat → Bool → Bool) (stopAt : Nat → Bool)
    (total : Nat) : List (Side × Nat) → Nat → Nat → List CfgEvent
  | [], _, _ => [.finished true .noError]
  | (s, p) :: rest, done, stopIdx =>
    if stopAt stopIdx then [.finished false .canceled]
    else
      .lock s ::
      .stepAttempt s (p + 1) false ::
      if ¬stepOk s p false then [.finished false (.fpgaFailed s (p + 1))]
      else
        .progress (progressValue (done + 1) total) ::
        if stopAt (stopIdx + 1) then [.finished false .canceled]
        else
          .stepAttempt s (p + 1) true ::
          if ¬stepOk s p true then [.finished false (.registersFailed s (p + 1))]
          else
            .progress (progressValue (done + 2) total) ::
            .unlock s ::
            cfgTasks stepOk stopAt total rest (done + 2) (stopIdx + 2)

/-- Set bit positions of an 8-bit mask, ascending:
`[i for i in range(8) if mask & (1 << i)]`. -/
def maskPositions (mask : Nat) : List Nat :=
  (List.range 8).filter fun i => mask &&& (1 <<< i) ≠ 0

/-- `_ConfigureWorker.run`: build the task list (left positions
ascending, then right positions ascending), fail on empty masks, then
run the two-step task loop with `total = len(tasks) * 2`. -/
def configureRun (leftMask rightMask : Nat) (stepOk : Side → Nat → Bool → Bool)
    (stopAt : Nat → Bool) : List CfgEvent :=
  let leftPositions := maskPositions leftMask
  let rightPositions := maskPositions rightMask
  if leftPositions = [] ∧ rightPositions = [] then [.finished false .emptyMasks]
  else
    let tasks := leftPositions.map (fun p => (Side.left, p)) ++
      rightPositions.map fun p => (Side.right, p)
    cfgTasks stepOk stopAt (tasks.length * 2) tasks 0 0

/-- The progress values of a trace, in emission order. -/
def progressValues (evs : List CfgEvent) : List Nat :=
  evs.filterMap fun e =>
    match e with
    | .progress v => some v
    | _ => none

/-- Net lock depth a trace leaves on one side's mutex. -/
def lockDepth (s : Side) (evs : List CfgEvent) : Int :=
  evs.foldl
    (fun d e =>
      match e with
      | .lock s' => if s' = s then d + 1 else d
      | .unlock s' => if s' = s then d - 1 else d
      | _ => d) 0

/-! ### Safety-status poll (`MOTIONConnector.readSafetyStatus`)

`self.safetyFailure` is a `pyqtProperty`; in Python, attribute access on
the instance invokes the property getter and yields the stored `bool`.
The source's `self.safetyFailure(True)` / `self.safetyFailure(False)`
therefore call a `bool`, which raises `TypeError`; the intended setter
(`self.safetyFailure = value`) is never invoked.  The model keeps that
faithfully: `safetyFailureCall` is the evaluation of such a call. -/

/-- Observable actions of one safety poll. -/
inductive SafetyEvent
  | stopTrigger
  | laserStateEmit
  | safetyNotify
  deriving DecidableEq, Repr

/-- Outcome of `self.safetyFailure(b)`: the property getter returns the
stored `bool`, and calling a `bool` raises `TypeError`. -/
inductive PyCallResult
  | typeError
  deriving DecidableEq, Repr

/-- One execution of `readSafetyStatus`, given the current
`_safetyFailure` flag and the two I2C reads (`none` models the empty
list `i2cReadBytes` returns on failure, which raises inside the `try`).
Returns the flag after the call, the events that actually fired, and
whether an exception escaped the slot. -/
def readSafetyStatus (flag : Bool) (readSE readSO : Option Nat) :
    Bool × List SafetyEvent × Bool :=
  match readSE, readSO with
  | some se, some so =>
    if se &&& 0x0F = 0 ∧ so &&& 0x0F = 0 then
      if flag then
        -- `self.safetyFailure(False)` raises; the handler's
        -- `self.safetyFailure(True)` raises again and escapes.
        (flag, [], true)
      else (flag, [], false)
    else
      if ¬flag then
        -- `self.safetyFailure(True)` raises before `stopTrigger()`;
        -- the handler raises again and the slot is left by TypeError.
        (flag, [], true)
      else (flag, [], false)
  | _, _ =>
    -- I2C failure raises; the handler's `self.safetyFailure(True)`
    -- raises TypeError, which escapes.
    (flag, [], true)

/-- The `stepAttempt` events of a trace, in order. -/
def stepAttempts (evs : List CfgEvent) : List (Side × Nat × Bool) :=
  evs.filterMap fun e =>
    match e with
    | .stepAttempt s p r => some (s, p, r)
    | _ => none

/-! ### Helper lemmas: CRC folds -/

theorem crcFold_ext (b b' : ByteBuf) :
    ∀ (cnt i crc : Nat), (∀ j, i ≤ j → j < i + cnt → b.data j = b'.data j) →
      crcFold b cnt i crc = crcFold b' cnt i crc := by
  intro cnt
  induction cnt with
  | zero => intro i crc _; rfl
  | succ c ih =>
    intro i crc h
    rw [crcFold, crcFold, seqNat_eq, seqNat_eq, seqNat_eq, seqNat_eq,
      h i (Nat.le_refl i) (by omega)]
    exact ih (i + 1) _ fun j hj1 hj2 => h j (by omega) (by omega)

theorem crcFold_add (b : ByteBuf) :
    ∀ (m k i crc : Nat), crcFold b (m + k) i crc = crcFold b k (i + m) (crcFold b m i crc) := by
  intro m
  induction m with
  | zero => intro k i crc; rw [Nat.zero_add, Nat.add_zero]; rfl
  | succ m ih =>
    intro k i crc
    rw [show m + 1 + k = (m + k) + 1 by omega]
    rw [crcFold, crcFold, seqNat_eq, seqNat_eq, seqNat_eq, seqNat_eq, ih]
    rw [show i + (m + 1) = i + 1 + m by omega]

/-- `readU16` written out: the two little-endian bytes. -/
theorem readU16_eq (b : ByteBuf) (off : Nat) :
    readU16 b off = b.data off + 256 * b.data (off + 1) := rfl

theorem crc16Range_succ (b : ByteBuf) (n : Nat) :
    crc16Range b (n + 1) = crcByte (crc16Range b n) (b.data n) := by
  rw [crc16Range, crc16Range, crcFold_add b n 1 0, Nat.zero_add]
  rw [show (1 : Nat) = 0 + 1 from rfl, crcFold, seqNat_eq, seqNat_eq]
  rfl

theorem crc16Range_ext (b b' : ByteBuf) (n : Nat)
    (h : ∀ j, j < n → b.data j = b'.data j) : crc16Range b n = crc16Range b' n :=
  crcFold_ext b b' n 0 0xFFFF fun j _ hj => h j (by omega)

/-! ### Helper lemmas: dict updates, worker traces, characters -/

theorem upsert_of_not_mem (k : Nat) (v : BlockRec) :
    ∀ (acc : List (Nat × BlockRec)), (∀ kv ∈ acc, kv.1 ≠ k) →
      upsert acc k v = acc ++ [(k, v)] := by
  intro acc
  induction acc with
  | nil => intro _; rfl
  | cons kv t ih =>
    intro h
    obtain ⟨k', v'⟩ := kv
    rw [upsert, if_neg (by simpa using h (k', v') (by simp))]
    simp [ih fun kv hkv => h kv (by simp [hkv])]

theorem progressValues_cfgTasks (stepOk : Side → Nat → Bool → Bool) (stopAt : Nat → Bool)
    (total : Nat) :
    ∀ (tasks : List (Side × Nat)) (done stopIdx : Nat),
      ∃ m, progressValues (cfgTasks stepOk stopAt total tasks done stopIdx) =
        (List.range' (done + 1) m).map fun j => progressValue j total := by
  intro tasks
  induction tasks with
  | nil =>
    intro done stopIdx
    exact ⟨0, rfl⟩
  | cons t rest ih =>
    intro done stopIdx
    obtain ⟨s, p⟩ := t
    by_cases h0 : stopAt stopIdx
    · exact ⟨0, by simp [cfgTasks, h0, progressValues]⟩
    · by_cases h1 : stepOk s p false
      · by_cases h2 : stopAt (stopIdx + 1)
        · refine ⟨1, ?_⟩
          simp [cfgTasks, h0, h1, h2, progressValues, List.range'_succ]
        · by_cases h3 : stepOk s p true
          · obtain ⟨m, hm⟩ := ih (done + 2) (stopIdx + 2)
            refine ⟨m + 2, ?_⟩
            simp only [progressValues] at hm ⊢
            simp [cfgTasks, h0, h1, h2, h3, hm, List.range'_succ]
          · refine ⟨1, ?_⟩
            simp [cfgTasks, h0, h1, h2, h3, progressValues, List.range'_succ]
      · exact ⟨0, by simp [cfgTasks, h0, h1, progressValues]⟩

theorem stepAttempts_cfgTasks (total : Nat) :
    ∀ (tasks : List (Side × Nat)) (done stopIdx : Nat),
      stepAttempts (cfgTasks (fun _ _ _ => true) (fun _ => false) total tasks done stopIdx) =
        tasks.flatMap fun sp => [(sp.1, sp.2 + 1, false), (sp.1, sp.2 + 1, true)] := by
  intro tasks
  induction tasks with
  | nil => intro done stopIdx; rfl
  | cons t rest ih =>
    intro done stopIdx
    obtain ⟨s, p⟩ := t
    simp [cfgTasks, stepAttempts, ih (done + 2) (stopIdx + 2)]
    simp only [stepAttempts] at ih
    rw [ih]

theorem toNat_ofNat_of_lt (m : Nat) (h2 : m < 55296) : (Char.ofNat m).toNat = m := by
  have hv : m.isValidChar := Or.inl h2
  rw [Char.ofNat, dif_pos hv]
  simp [Char.ofNatAux, Char.toNat, UInt32.toNat, BitVec.toNat_ofNatLt]

theorem char_le_iff_toNat (a b : Char) : a ≤ b ↔ a.toNat ≤ b.toNat := by
  simp [Char.le_def, UInt32.le_def, BitVec.le_def, Char.toNat, UInt32.toNat]

/-- The uppercase map never produces an ASCII lowercase letter. -/
theorem pyUpperChar_not_lower (d : Char) :
    ¬('a' ≤ pyUpperChar d ∧ pyUpperChar d ≤ 'z') := by
  unfold pyUpperChar
  by_cases h : 'a' ≤ d ∧ d ≤ 'z'
  · rw [if_pos h]
    have h1 : 97 ≤ d.toNat := (char_le_iff_toNat 'a' d).1 h.1
    have h2 : d.toNat ≤ 122 := (char_le_iff_toNat d 'z').1 h.2
    have ht : (Char.ofNat (d.toNat - 32)).toNat = d.toNat - 32 :=
      toNat_ofNat_of_lt _ (by omega)
    rintro ⟨ha, hb⟩
    have h3 := (char_le_iff_toNat _ _).1 ha
    rw [ht, show ('a').toNat = 97 from by decide] at h3
    omega
  · rwa [if_neg h]

/-! ### Helper lemmas: bytes of the reference packets -/

theorem zpLen_ge (n : Nat) (hn : 1 ≤ n) : 4112 ≤ zpLen n := by
  unfold zpLen PACKET_HEADER_SIZE HISTO_BLOCK_SIZE HISTO_BYTES HISTO_SIZE_WORDS PACKET_FOOTER_SIZE
  omega

theorem zpLen_eq (n : Nat) : zpLen n = 9 + n * 4103 := by
  unfold zpLen PACKET_HEADER_SIZE HISTO_BLOCK_SIZE HISTO_BYTES HISTO_SIZE_WORDS PACKET_FOOTER_SIZE
  omega

theorem withCrc_size (b : ByteBuf) : (withCrc b).size = b.size := rfl

theorem withCrc_data_of_ne (b : ByteBuf) (i : Nat) (h3 : i ≠ b.size - 3) (h2 : i ≠ b.size - 2) :
    (withCrc b).data i = b.data i := by
  simp [withCrc, h3, h2]

theorem raw_size (n lw : Nat) : (zeroPacketRaw n lw).size = zpLen n := rfl

theorem zp_size (n lw : Nat) : (zeroPacket n lw).size = zpLen n := rfl

/-- The CRC value stored in `zeroPacket n lw`. -/
def zpCrc (n lw : Nat) : Nat :=
  crc16Range (zeroPacketRaw n lw) (zpLen n - 4)

theorem zp_crc_eq (n lw : Nat) (hn : 1 ≤ n) :
    crc16Range (zeroPacket n lw) (zpLen n - 4) = zpCrc n lw := by
  have h1 := zpLen_ge n hn
  apply crc16Range_ext
  intro j hj
  exact withCrc_data_of_ne _ _ (by rw [raw_size]; omega) (by rw [raw_size]; omega)

theorem zp_data_of_ne (n lw i : Nat) (h3 : i ≠ zpLen n - 3) (h2 : i ≠ zpLen n - 2) :
    (zeroPacket n lw).data i = (zeroPacketRaw n lw).data i :=
  withCrc_data_of_ne _ _ (by rw [raw_size]; exact h3) (by rw [raw_size]; exact h2)

theorem zp_data_crcLo (n lw : Nat) :
    (zeroPacket n lw).data (zpLen n - 3) = zpCrc n lw % 256 := by
  show (if zpLen n - 3 = (zeroPacketRaw n lw).size - 3 then
      crc16Range (zeroPacketRaw n lw) ((zeroPacketRaw n lw).size - 4) % 256
    else _) = _
  rw [if_pos (show zpLen n - 3 = (zeroPacketRaw n lw).size - 3 from rfl)]
  rfl

theorem zp_data_crcHi (n lw : Nat) (hn : 1 ≤ n) :
    (zeroPacket n lw).data (zpLen n - 2) = zpCrc n lw / 256 := by
  have h1 := zpLen_ge n hn
  show (if zpLen n - 2 = (zeroPacketRaw n lw).size - 3 then _
    else if zpLen n - 2 = (zeroPacketRaw n lw).size - 2 then
      crc16Range (zeroPacketRaw n lw) ((zeroPacketRaw n lw).size - 4) / 256
    else _) = _
  rw [if_neg (show ¬(zpLen n - 2 = (zeroPacketRaw n lw).size - 3) by rw [raw_size]; omega),
    if_pos (show zpLen n - 2 = (zeroPacketRaw n lw).size - 2 from rfl)]
  rfl

theorem raw_data_block (n lw j k : Nat) (hj : j < n) (hk : k < 4103) :
    (zeroPacketRaw n lw).data (6 + j * 4103 + k) =
      zeroBlockByte j (if j = 0 then lw else 0) k := by
  show (if 6 + j * 4103 + k = 0 then SOF else _) = _
  rw [if_neg (by omega), if_neg (by omega), if_neg (by omega), if_neg (by omega),
    if_neg (by omega), if_neg (by omega)]
  rw [if_pos (by
    show 6 + j * 4103 + k < PACKET_HEADER_SIZE + n * HISTO_BLOCK_SIZE
    unfold PACKET_HEADER_SIZE HISTO_BLOCK_SIZE HISTO_BYTES HISTO_SIZE_WORDS
    omega)]
  have hd : (6 + j * 4103 + k - PACKET_HEADER_SIZE) / HISTO_BLOCK_SIZE = j := by
    unfold PACKET_HEADER_SIZE HISTO_BLOCK_SIZE HISTO_BYTES HISTO_SIZE_WORDS
    omega
  have hm : (6 + j * 4103 + k - PACKET_HEADER_SIZE) % HISTO_BLOCK_SIZE = k := by
    unfold PACKET_HEADER_SIZE HISTO_BLOCK_SIZE HISTO_BYTES HISTO_SIZE_WORDS
    omega
  rw [hd, hm]

theorem zp_data_block (n lw j k : Nat) (hj : j < n) (hk : k < 4103) :
    (zeroPacket n lw).data (6 + j * 4103 + k) =
      zeroBlockByte j (if j = 0 then lw else 0) k := by
  have hL := zpLen_eq n
  rw [zp_data_of_ne n lw _ (by omega) (by omega), raw_data_block n lw j k hj hk]

theorem zp_data_eof (n lw : Nat) (hn : 1 ≤ n) :
    (zeroPacket n lw).data (zpLen n - 1) = EOFByte := by
  have h1 := zpLen_ge n hn
  have hL := zpLen_eq n
  rw [zp_data_of_ne n lw _ (by omega) (by omega)]
  simp only [zeroPacketRaw]
  rw [if_neg (by omega), if_neg (by omega), if_neg (by omega), if_neg (by omega),
    if_neg (by omega), if_neg (by omega)]
  rw [if_neg (by
    show ¬(zpLen n - 1 < PACKET_HEADER_SIZE + n * HISTO_BLOCK_SIZE)
    unfold PACKET_HEADER_SIZE HISTO_BLOCK_SIZE HISTO_BYTES HISTO_SIZE_WORDS
    omega)]
  simp


/-! ### Helper lemmas: symbolic decode of the reference packets -/


theorem zeroBlockByte_word (j w t r : Nat) (ht : t < 1024) (hr : r < 4) :
    zeroBlockByte j w (2 + 4 * t + r) =
      if t = 1023 then w / 256 ^ r % 256 else 0 := by
  unfold zeroBlockByte
  by_cases h : t = 1023
  · subst h
    interval_cases r
    · rw [if_neg (by omega), if_neg (by omega), if_pos (by omega)]
      simp
    · rw [if_neg (by omega), if_neg (by omega), if_neg (by omega), if_pos (by omega)]
      norm_num
    · rw [if_neg (by omega), if_neg (by omega), if_neg (by omega), if_neg (by omega),
        if_pos (by omega)]
      norm_num
    · rw [if_neg (by omega), if_neg (by omega), if_neg (by omega), if_neg (by omega),
        if_neg (by omega), if_pos (by omega)]
      norm_num
  · rw [if_neg (by omega), if_neg (by omega), if_neg (by omega), if_neg (by omega),
      if_neg (by omega), if_neg (by omega), if_neg (by omega), if_neg h]



theorem zp_readU32_word (n lw : Nat) (_hn : 1 ≤ n) (b : ByteBuf)
    (hag : ∀ i, i < zpLen n → b.data i = (zeroPacket n lw).data i)
    (j : Nat) (hj : j < n) (w : Nat) (hw : w = (if j = 0 then lw else 0)) (hw32 : w < 2 ^ 32)
    (t : Nat) (ht : t < 1024) :
    readU32 b (6 + j * 4103 + (2 + 4 * t)) = if t = 1023 then w else 0 := by
  have hL := zpLen_eq n
  have hbyte : ∀ k, k < 4103 → b.data (6 + j * 4103 + k) = zeroBlockByte j w k := by
    intro k hk
    rw [hag _ (by omega), zp_data_block n lw j k hj hk, hw]
  rw [readU32]
  rw [show 6 + j * 4103 + (2 + 4 * t) + 1 = 6 + j * 4103 + (2 + 4 * t + 1) by omega,
    show 6 + j * 4103 + (2 + 4 * t) + 2 = 6 + j * 4103 + (2 + 4 * t + 2) by omega,
    show 6 + j * 4103 + (2 + 4 * t) + 3 = 6 + j * 4103 + (2 + 4 * t + 3) by omega]
  rw [show (2 + 4 * t) = 2 + 4 * t + 0 by omega] 
  rw [hbyte _ (by omega), hbyte _ (by omega), hbyte _ (by omega), hbyte _ (by omega)]
  rw [zeroBlockByte_word j w t 0 ht (by omega), zeroBlockByte_word j w t 1 ht (by omega),
    zeroBlockByte_word j w t 2 ht (by omega), zeroBlockByte_word j w t 3 ht (by omega)]
  by_cases h : t = 1023
  · simp only [if_pos h]
    norm_num
    omega
  · simp [h]



theorem parseBlock_zp (n lw : Nat) (hn : 1 ≤ n) (hlw : lw < 2 ^ 32) (b : ByteBuf)
    (hag : ∀ i, i < zpLen n → b.data i = (zeroPacket n lw).data i)
    (j : Nat) (hj : j < n) :
    parseBlock b (6 + j * 4103) = .ok (j, zpRec (if j = 0 then lw else 0)) := by
  have hL := zpLen_eq n
  set w := (if j = 0 then lw else 0) with hw
  have hw32 : w < 2 ^ 32 := by
    rw [hw]; split
    · exact hlw
    · norm_num
  have hbyte : ∀ k, k < 4103 → b.data (6 + j * 4103 + k) = zeroBlockByte j w k := by
    intro k hk
    rw [hag _ (by omega), zp_data_block n lw j k hj hk, hw]
  have hsoh : b.data (6 + j * 4103) = SOH := by
    rw [show 6 + j * 4103 = 6 + j * 4103 + 0 by omega, hbyte 0 (by omega)]
    rfl
  have hcam : b.data (6 + j * 4103 + 1) = j := by
    rw [hbyte 1 (by omega)]; rfl
  have heoh : b.data (6 + j * 4103 + 2 + HISTO_BYTES + 4) = EOH := by
    rw [show 6 + j * 4103 + 2 + HISTO_BYTES + 4 = 6 + j * 4103 + 4102 by
        unfold HISTO_BYTES HISTO_SIZE_WORDS; omega,
      hbyte 4102 (by omega)]
    rfl
  have htemp : readU32 b (6 + j * 4103 + 2 + HISTO_BYTES) = 0 := by
    rw [readU32]
    rw [show 6 + j * 4103 + 2 + HISTO_BYTES = 6 + j * 4103 + 4098 by
        unfold HISTO_BYTES HISTO_SIZE_WORDS; omega]
    rw [show 6 + j * 4103 + 4098 + 1 = 6 + j * 4103 + 4099 by omega,
      show 6 + j * 4103 + 4098 + 2 = 6 + j * 4103 + 4100 by omega,
      show 6 + j * 4103 + 4098 + 3 = 6 + j * 4103 + 4101 by omega]
    rw [hbyte 4098 (by omega), hbyte 4099 (by omega), hbyte 4100 (by omega),
      hbyte 4101 (by omega)]
    rfl
  have hwords : ((List.range HISTO_SIZE_WORDS).map fun t => readU32 b (6 + j * 4103 + 2 + 4 * t)) =
      (List.replicate HISTO_SIZE_WORDS 0).set (HISTO_SIZE_WORDS - 1) w := by
    apply List.ext_getElem
    · simp
    · intro t h1 h2
      simp only [List.getElem_map, List.getElem_range, List.getElem_set,
        List.getElem_replicate]
      simp only [List.length_map, List.length_range] at h1
      rw [show 6 + j * 4103 + 2 + 4 * t = 6 + j * 4103 + (2 + 4 * t) by omega]
      rw [zp_readU32_word n lw hn b hag j hj w hw.symm hw32 t (by
        unfold HISTO_SIZE_WORDS at h1; omega)]
      unfold HISTO_SIZE_WORDS
      by_cases h : t = 1023
      · simp [h]
      · rw [if_neg h, if_neg (show ¬(1023 = t) from fun hh => h hh.symm)]
  have hlast : ((List.replicate HISTO_SIZE_WORDS 0).set (HISTO_SIZE_WORDS - 1) w).getD
      (HISTO_SIZE_WORDS - 1) 0 = w := by
    rw [List.getD_eq_getElem _ _ (by simp; unfold HISTO_SIZE_WORDS; omega)]
    rw [List.getElem_set]
    simp
  simp only [parseBlock]
  rw [if_neg (by rw [hsoh]; simp)]
  rw [if_neg (by rw [heoh]; simp)]
  rw [hwords, hcam, htemp, hlast, List.set_set]
  rfl



theorem parseBlocks_zp (n lw : Nat) (hn : 1 ≤ n) (hlw : lw < 2 ^ 32) (b : ByteBuf)
    (hag : ∀ i, i < zpLen n → b.data i = (zeroPacket n lw).data i) :
    ∀ (m j0 : Nat) (acc : List (Nat × BlockRec)), j0 + m ≤ n →
      (∀ kv ∈ acc, kv.1 < j0) →
      parseBlocks b 6 (List.range' j0 m) acc =
        .ok (acc ++ (List.range' j0 m).map fun j => (j, zpRec (if j = 0 then lw else 0))) := by
  intro m
  induction m with
  | zero => intro j0 acc _ _; simp [parseBlocks]
  | succ m ih =>
    intro j0 acc hle hacc
    rw [List.range'_succ, parseBlocks]
    rw [show 6 + j0 * HISTO_BLOCK_SIZE = 6 + j0 * 4103 by
      unfold HISTO_BLOCK_SIZE HISTO_BYTES HISTO_SIZE_WORDS; omega]
    rw [parseBlock_zp n lw hn hlw b hag j0 (by omega)]
    dsimp only
    rw [upsert_of_not_mem _ _ acc (fun kv hkv => by have := hacc kv hkv; omega)]
    rw [ih (j0 + 1) (acc ++ [(j0, zpRec (if j0 = 0 then lw else 0))]) (by omega) (by
      intro kv hkv
      rcases List.mem_append.1 hkv with h | h
      · have := hacc kv h; omega
      · have h2 := List.mem_singleton.1 h
        subst h2
        simp)]
    simp



theorem zp_data_head (n lw : Nat) (hn : 1 ≤ n) (i : Nat) (hi : i < 6) :
    (zeroPacket n lw).data i = (zeroPacketRaw n lw).data i := by
  have h1 := zpLen_ge n hn
  exact zp_data_of_ne n lw i (by omega) (by omega)

theorem parse_zp (n lw : Nat) (hn : 1 ≤ n) (hn2 : n ≤ 255) (hlw : lw < 2 ^ 32)
    (b : ByteBuf) (hsz : zpLen n ≤ b.size)
    (hag : ∀ i, i < zpLen n → b.data i = (zeroPacket n lw).data i) :
    parse_histogram_packet b = .ok (zpResult n lw) := by
  have hL := zpLen_eq n
  have hge := zpLen_ge n hn
  have hsof : b.data 0 = SOF := by
    rw [hag 0 (by omega), zp_data_head n lw hn 0 (by omega)]
    rfl
  have htype : b.data 1 = 0x00 := by
    rw [hag 1 (by omega), zp_data_head n lw hn 1 (by omega)]
    rfl
  have hlen : readU32 b 2 = zpLen n := by
    rw [readU32,
      hag 2 (by omega), zp_data_head n lw hn 2 (by omega),
      hag 3 (by omega), zp_data_head n lw hn 3 (by omega),
      hag 4 (by omega), zp_data_head n lw hn 4 (by omega),
      hag 5 (by omega), zp_data_head n lw hn 5 (by omega)]
    show zpLen n % 256 + 256 * (zpLen n / 256 % 256) + 65536 * (zpLen n / 65536 % 256) +
      16777216 * (zpLen n / 16777216 % 256) = zpLen n
    have d1 : zpLen n / 256 / 256 = zpLen n / 65536 := by
      rw [Nat.div_div_eq_div_mul]
    have d2 : zpLen n / 65536 / 256 = zpLen n / 16777216 := by
      rw [Nat.div_div_eq_div_mul]
    omega
  simp only [parse_histogram_packet]
  rw [if_neg (by
    show ¬(b.size < MIN_PACKET_SIZE)
    unfold MIN_PACKET_SIZE PACKET_HEADER_SIZE PACKET_FOOTER_SIZE HISTO_BLOCK_SIZE
      HISTO_BYTES HISTO_SIZE_WORDS
    omega)]
  rw [hsof, htype, hlen]
  rw [if_neg (by simp [SOF])]
  rw [if_neg (by omega)]
  simp only [show zpLen n - (PACKET_HEADER_SIZE + PACKET_FOOTER_SIZE) = n * 4103 by
    unfold PACKET_HEADER_SIZE PACKET_FOOTER_SIZE
    omega]
  rw [if_neg (by
    show ¬(n * 4103 < HISTO_BLOCK_SIZE)
    unfold HISTO_BLOCK_SIZE HISTO_BYTES HISTO_SIZE_WORDS
    omega)]
  have hmod : n * 4103 % HISTO_BLOCK_SIZE = 0 := by
    rw [show HISTO_BLOCK_SIZE = 4103 by unfold HISTO_BLOCK_SIZE HISTO_BYTES HISTO_SIZE_WORDS; omega]
    omega
  rw [if_neg (by
    rw [hmod]
    rintro ⟨h1, h2⟩
    exact h2 rfl)]
  simp only [show (n * 4103 % HISTO_BLOCK_SIZE = TIMESTAMP_SIZE) = False by
    rw [hmod]
    simp [TIMESTAMP_SIZE], if_false]
  simp only [show n * 4103 - 0 = n * 4103 from by omega]
  simp only [show n * 4103 / HISTO_BLOCK_SIZE = n by
    rw [show HISTO_BLOCK_SIZE = 4103 by unfold HISTO_BLOCK_SIZE HISTO_BYTES HISTO_SIZE_WORDS; omega]
    omega]
  simp only [show PACKET_HEADER_SIZE + 0 = 6 by unfold PACKET_HEADER_SIZE; omega]
  rw [List.range_eq_range']
  rw [parseBlocks_zp n lw hn hlw b hag n 0 [] (by omega) (by simp)]
  dsimp only
  simp only [show zpLen n - PACKET_FOOTER_SIZE = zpLen n - 3 by unfold PACKET_FOOTER_SIZE; omega]
  have hcrcExp : readU16 b (zpLen n - 3) = zpCrc n lw := by
    rw [readU16, hag _ (by omega), hag _ (by omega)]
    rw [show zpLen n - 3 + 1 = zpLen n - 2 by omega]
    rw [zp_data_crcLo, zp_data_crcHi n lw hn]
    omega
  rw [hcrcExp]
  rw [hag _ (by omega), zp_data_eof n lw hn]
  rw [if_neg (by simp [EOFByte])]
  have hcrcRange : crc16Range b (zpLen n - 4) = zpCrc n lw := by
    rw [crc16Range_ext b (zeroPacket n lw) _ (fun j hj => hag j (by omega))]
    exact zp_crc_eq n lw hn
  rw [hcrcRange]
  rw [if_neg (by simp)]
  simp [zpResult, zpBlocks, List.range_eq_range']

/-! ### Helper lemmas: decode totality, provenance, resync search -/

/-- The `ValueError` messages `parse_histogram_packet` can raise. -/
def errorMessages : List String :=
  ["Packet too small", "Bad header", "Truncated packet", "Packet payload too small",
   "Packet length mismatch", "Missing SOH", "Missing EOH", "Missing EOF", "CRC mismatch"]

theorem parseBlock_error (pkt : ByteBuf) (off : Nat) (e : String)
    (h : parseBlock pkt off = .error e) : e = "Missing SOH" ∨ e = "Missing EOH" := by
  unfold parseBlock at h
  split at h
  · exact Or.inl (by injection h with h; exact h.symm)
  · split at h
    · exact Or.inr (by injection h with h; exact h.symm)
    · simp at h

theorem parseBlocks_error (pkt : ByteBuf) (start : Nat) :
    ∀ (idxs : List Nat) (acc : List (Nat × BlockRec)) (e : String),
      parseBlocks pkt start idxs acc = .error e →
      e = "Missing SOH" ∨ e = "Missing EOH" := by
  intro idxs
  induction idxs with
  | nil => intro acc e h; simp [parseBlocks] at h
  | cons i rest ih =>
    intro acc e h
    rw [parseBlocks] at h
    split at h
    · rename_i e' he
      injection h with h
      subst h
      exact parseBlock_error pkt _ e' he
    · exact ih _ e h

theorem parse_ok_inv (b : ByteBuf) (res : PacketResult)
    (h : parse_histogram_packet b = .ok res) :
    res.consumed = readU32 b 2 ∧
    MIN_PACKET_SIZE ≤ b.size ∧
    res.consumed ≤ b.size ∧
    b.data (res.consumed - 1) = EOFByte ∧
    crc16Range b (res.consumed - 4) = readU16 b (res.consumed - 3) := by
  simp only [parse_histogram_packet] at h
  split at h
  · simp at h
  rename_i hsize
  split at h
  · simp at h
  rename_i hhdr
  split at h
  · simp at h
  rename_i htrunc
  split at h
  · simp at h
  rename_i hpay
  split at h
  · simp at h
  rename_i hts
  split at h
  · simp at h
  rename_i blocks hblocks
  split at h
  · simp at h
  rename_i heof
  split at h
  · simp at h
  rename_i hcrc
  injection h with h
  subst h
  simp only [not_lt] at hsize htrunc
  refine ⟨rfl, hsize, htrunc, ?_, ?_⟩
  · simpa using heof
  · have := not_ne_iff.1 hcrc
    simpa using this

theorem parse_total (b : ByteBuf) :
    (∃ r, parse_histogram_packet b = .ok r) ∨
      ∃ e, parse_histogram_packet b = .error e ∧ e ∈ errorMessages := by
  simp only [parse_histogram_packet]
  split
  · exact Or.inr ⟨_, rfl, by decide⟩
  split
  · exact Or.inr ⟨_, rfl, by decide⟩
  split
  · exact Or.inr ⟨_, rfl, by decide⟩
  split
  · exact Or.inr ⟨_, rfl, by decide⟩
  split
  · exact Or.inr ⟨_, rfl, by decide⟩
  split
  · rename_i e he
    refine Or.inr ⟨e, rfl, ?_⟩
    rcases parseBlocks_error _ _ _ _ _ he with h | h <;> subst h <;> decide
  split
  · exact Or.inr ⟨_, rfl, by decide⟩
  split
  · exact Or.inr ⟨_, rfl, by decide⟩
  exact Or.inl ⟨_, rfl⟩

theorem drain_rows_from_ok (buf : ByteBuf) :
    ∀ (fuel off : Nat) (row : Row), row ∈ (drainLoop buf fuel off).1 →
      ∃ (o : Nat) (r : PacketResult), parse_histogram_packet (byteDrop buf o) = .ok r ∧
        row ∈ packetRows r := by
  intro fuel
  induction fuel with
  | zero => intro off row h; simp [drainLoop] at h
  | succ fuel ih =>
    intro off row h
    rw [drainLoop] at h
    split at h
    · split at h
      · rename_i res hres
        simp only at h
        rcases List.mem_append.1 h with hm | hm
        · exact ⟨off, res, hres, hm⟩
        · exact ih _ row hm
      · split at h
        · exact ih _ row h
        · simp at h
    · simp at h

theorem findSigFrom_none (b : ByteBuf) :
    ∀ (cnt i : Nat), (∀ k, i ≤ k → k < i + cnt → ¬sigAt b k) →
      findSigFrom b cnt i = none := by
  intro cnt
  induction cnt with
  | zero => intro i _; rfl
  | succ c ih =>
    intro i h
    rw [findSigFrom, if_neg (h i (Nat.le_refl i) (by omega))]
    exact ih (i + 1) fun k h1 h2 => h k (by omega) (by omega)

theorem findSigFrom_some (b : ByteBuf) :
    ∀ (cnt i m : Nat), i ≤ m → m < i + cnt →
      (∀ k, i ≤ k → k < m → ¬sigAt b k) → sigAt b m →
      findSigFrom b cnt i = some m := by
  intro cnt
  induction cnt with
  | zero => intro i m h1 h2 _ _; omega
  | succ c ih =>
    intro i m h1 h2 hfail hm
    by_cases he : i = m
    · subst he
      rw [findSigFrom, if_pos hm]
    · rw [findSigFrom, if_neg (hfail i (Nat.le_refl i) (by omega))]
      exact ih (i + 1) m (by omega) (by omega) (fun k hk1 hk2 => hfail k (by omega) hk2) hm

/-! ### Helper lemmas: concrete stream runs -/

/-- One packet accepted: the loop appends its rows and advances by
`consumed`. -/
theorem drainLoop_ok (buf : ByteBuf) (f off : Nat) (res : PacketResult)
    (hsz : off + MIN_PACKET_SIZE ≤ buf.size)
    (h : parse_histogram_packet (byteDrop buf off) = .ok res) :
    drainLoop buf (f + 1) off =
      (packetRows res ++ (drainLoop buf f (off + res.consumed)).1,
        (drainLoop buf f (off + res.consumed)).2) := by
  rw [drainLoop, if_pos hsz, h]

/-- A failed parse with the resync signature ahead: the loop jumps
there. -/
theorem drainLoop_err_some (buf : ByteBuf) (f off nxt : Nat) (e : String)
    (hsz : off + MIN_PACKET_SIZE ≤ buf.size)
    (h : parse_histogram_packet (byteDrop buf off) = .error e)
    (hsig : findSig buf (off + 1) = some nxt) :
    drainLoop buf (f + 1) off = drainLoop buf f nxt := by
  rw [drainLoop, if_pos hsz, h, hsig]

/-- A failed parse with no resync signature: the loop stops one byte
in, waiting for more input. -/
theorem drainLoop_err_none (buf : ByteBuf) (f off : Nat) (e : String)
    (hsz : off + MIN_PACKET_SIZE ≤ buf.size)
    (h : parse_histogram_packet (byteDrop buf off) = .error e)
    (hsig : findSig buf (off + 1) = none) :
    drainLoop buf (f + 1) off = ([], off + 1) := by
  rw [drainLoop, if_pos hsz, h, hsig]

/-- Less than a minimum packet left: the loop stops. -/
theorem drainLoop_stop (buf : ByteBuf) (f off : Nat)
    (hsz : ¬(off + MIN_PACKET_SIZE ≤ buf.size)) :
    drainLoop buf (f + 1) off = ([], off) := by
  rw [drainLoop, if_neg hsz]


theorem zeroBlockByte_ne_AA (m : Nat) : zeroBlockByte 0 0 m ≠ 0xAA := by
  unfold zeroBlockByte
  split
  · decide
  split
  · decide
  split
  · decide
  split
  · decide
  split
  · decide
  split
  · decide
  split
  · decide
  decide

theorem streamBad_data_low (k : Nat) (h1 : 4112 ≤ k) (h2 : k < 4119) :
    streamBad.data k = 0 := by
  show (if k < 4112 then _ else if k < 4119 then 0 else _) = 0
  rw [if_neg (by omega), if_pos (by omega)]

theorem streamBad_data_high (k : Nat) (h1 : 4119 ≤ k) :
    streamBad.data k = pktOneZero.data (k - 4119) := by
  show (if k < 4112 then _ else if k < 4119 then _ else pktOneZero.data (k - 4119)) = _
  rw [if_neg (by omega), if_neg (by omega)]

theorem findSig_streamBad : findSig streamBad 4113 = none := by
  apply findSigFrom_none
  intro k hk1 hk2
  rintro ⟨hsz, hAA, h00, h41⟩
  have hsize : streamBad.size = 8231 := rfl
  rw [hsize] at hsz
  by_cases hc1 : k < 4119
  · rw [streamBad_data_low k (by omega) hc1] at hAA
    exact absurd hAA (by decide)
  · push_neg at hc1
    obtain ⟨k', rfl⟩ : ∃ k'', k = 4119 + k'' := ⟨k - 4119, by omega⟩
    rw [streamBad_data_high (4119 + k') (by omega),
      show 4119 + k' - 4119 = k' by omega,
      show pktOneZero = zeroPacket 1 0 from rfl] at hAA
    by_cases hc2 : k' = 0
    · subst hc2
      rw [streamBad_data_high (4119 + 0 + 2) (by omega)] at h41
      have h2 : pktOneZero.data 2 = 16 := by decide
      rw [show 4119 + 0 + 2 - 4119 = 2 from rfl, h2] at h41
      exact absurd h41 (by decide)
    · by_cases hc3 : k' < 6
      · have hb1 : 1 ≤ k' := by omega
        interval_cases k'
        · exact absurd hAA (by decide)
        · exact absurd hAA (by decide)
        · exact absurd hAA (by decide)
        · exact absurd hAA (by decide)
        · exact absurd hAA (by decide)
      · push_neg at hc3
        by_cases hc4 : k' ≤ 4108
        · have hblk := zp_data_block 1 0 0 (k' - 6) (by omega) (by omega)
          rw [show 6 + 0 * 4103 + (k' - 6) = k' by omega] at hblk
          norm_num at hblk
          rw [hblk] at hAA
          exact absurd hAA (zeroBlockByte_ne_AA (k' - 6))
        · have h4109 : k' = 4109 := by omega
          rw [streamBad_data_high (4119 + k' + 2) (by omega)] at h41
          have he : pktOneZero.data 4111 = EOFByte := by
            have := zp_data_eof 1 0 (by omega)
            rwa [show zpLen 1 - 1 = 4111 from by decide] at this
          rw [show 4119 + k' + 2 - 4119 = 4111 by omega, he] at h41
          exact absurd h41 (by decide)



theorem parse_pktOne_at (b : ByteBuf) (hsz : 4112 ≤ b.size)
    (hag : ∀ i, i < 4112 → b.data i = pktOne.data i) :
    parse_histogram_packet b = .ok (zpResult 1 0x0500002A) := by
  have hz : zpLen 1 = 4112 := by decide
  exact parse_zp 1 0x0500002A (by omega) (by omega) (by norm_num) b
    (by omega) (fun i hi => hag i (by omega))

theorem parse_streamGood_0 :
    parse_histogram_packet (byteDrop streamGood 0) = .ok (zpResult 1 0x0500002A) := by
  apply parse_pktOne_at
  · show 4112 ≤ streamGood.size - 0
    decide
  · intro i hi
    show streamGood.data (0 + i) = _
    rw [Nat.zero_add]
    show (if i < 4112 then pktOne.data i else _) = _
    rw [if_pos hi]

theorem parse_streamGood_err :
    parse_histogram_packet (byteDrop streamGood 4112) = .error "Bad header" := by
  rfl

theorem findSig_streamGood : findSig streamGood 4113 = some 4119 := by
  decide

theorem parse_streamGood_4119 :
    parse_histogram_packet (byteDrop streamGood 4119) = .ok (zpResult 8 0) := by
  have hz : zpLen 8 = 32833 := by decide
  apply parse_zp 8 0 (by omega) (by omega) (by norm_num)
  · show zpLen 8 ≤ streamGood.size - 4119
    rw [hz]
    decide
  · intro i hi
    show streamGood.data (4119 + i) = _
    show (if 4119 + i < 4112 then _ else if 4119 + i < 4119 then _
      else pktEight.data (4119 + i - 4119)) = _
    rw [if_neg (by omega), if_neg (by omega), show 4119 + i - 4119 = i by omega]
    rfl



theorem streamGood_drain :
    (drainLoop streamGood (36952 + 1) 0).1 =
      packetRows (zpResult 1 0x0500002A) ++ packetRows (zpResult 8 0) := by
  rw [drainLoop_ok streamGood 36952 0 (zpResult 1 0x0500002A) (by decide)
    parse_streamGood_0]
  rw [show 0 + (zpResult 1 0x0500002A).consumed = 4112 from rfl]
  rw [show (36952 : Nat) = 36951 + 1 from rfl,
    drainLoop_err_some streamGood 36951 4112 4119 "Bad header" (by decide)
      parse_streamGood_err
      (by rw [show (4112 : Nat) + 1 = 4113 from rfl]; exact findSig_streamGood)]
  rw [show (36951 : Nat) = 36950 + 1 from rfl,
    drainLoop_ok streamGood 36950 4119 (zpResult 8 0) (by decide)
      parse_streamGood_4119]
  rw [show 4119 + (zpResult 8 0).consumed = 36952 from rfl]
  rw [show (36950 : Nat) = 36949 + 1 from rfl,
    drainLoop_stop streamGood 36949 36952 (by decide)]
  simp

theorem streamGood_rows :
    parseStreamRows streamGood =
      packetRows (zpResult 1 0x0500002A) ++ packetRows (zpResult 8 0) := by
  rw [parseStreamRows, show streamGood.size = 36952 from rfl]
  exact streamGood_drain



theorem parse_streamBad_0 :
    parse_histogram_packet (byteDrop streamBad 0) = .ok (zpResult 1 0x0500002A) := by
  apply parse_pktOne_at
  · show 4112 ≤ streamBad.size - 0
    decide
  · intro i hi
    show streamBad.data (0 + i) = _
    rw [Nat.zero_add]
    show (if i < 4112 then pktOne.data i else _) = _
    rw [if_pos hi]

theorem parse_streamBad_err :
    parse_histogram_packet (byteDrop streamBad 4112) = .error "Bad header" := by
  rfl

theorem streamBad_drain :
    (drainLoop streamBad (8231 + 1) 0).1 = packetRows (zpResult 1 0x0500002A) := by
  rw [drainLoop_ok streamBad 8231 0 (zpResult 1 0x0500002A) (by decide)
    parse_streamBad_0]
  rw [show 0 + (zpResult 1 0x0500002A).consumed = 4112 from rfl]
  rw [show (8231 : Nat) = 8230 + 1 from rfl,
    drainLoop_err_none streamBad 8230 4112 "Bad header" (by decide)
      parse_streamBad_err
      (by rw [show (4112 : Nat) + 1 = 4113 from rfl]; exact findSig_streamBad)]
  simp

theorem streamBad_rows :
    parseStreamRows streamBad = packetRows (zpResult 1 0x0500002A) := by
  rw [parseStreamRows, show streamBad.size = 8231 from rfl]
  exact streamBad_drain

theorem pktOne_drain :
    (drainLoop pktOne (4112 + 1) 0).1 = packetRows (zpResult 1 0x0500002A) := by
  rw [drainLoop_ok pktOne 4112 0 (zpResult 1 0x0500002A) (by decide)
    (parse_pktOne_at (byteDrop pktOne 0) (by decide)
      (fun i hi => by show pktOne.data (0 + i) = _; rw [Nat.zero_add]))]
  rw [show 0 + (zpResult 1 0x0500002A).consumed = 4112 from rfl]
  rw [show (4112 : Nat) = 4111 + 1 from rfl, drainLoop_stop pktOne 4111 4112 (by decide)]
  simp

theorem pktOne_rows :
    parseStreamRows pktOne = packetRows (zpResult 1 0x0500002A) := by
  rw [parseStreamRows, show pktOne.size = 4112 from rfl]
  exact pktOne_drain

/-! ### The stored CRC of `pktOne`, evaluated in chunks -/

theorem pktOne_crc_value : crc16Range pktOne 4108 = 17848 := by
  have h1 : crcFold pktOne 1027 0 0xFFFF = 51735 := by decide
  have h2 : crcFold pktOne 1027 1027 51735 = 11379 := by decide
  have h3 : crcFold pktOne 1027 2054 11379 = 24701 := by decide
  have h4 : crcFold pktOne 1027 3081 24701 = 17848 := by decide
  have e1 : crc16Range pktOne 4108 = crcFold pktOne 3081 1027 51735 := by
    rw [crc16Range, show (4108 : Nat) = 1027 + 3081 from rfl, crcFold_add, Nat.zero_add, h1]
  have e2 : crcFold pktOne 3081 1027 51735 = crcFold pktOne 2054 2054 11379 := by
    rw [show (3081 : Nat) = 1027 + 2054 from rfl, crcFold_add, h2]
  have e3 : crcFold pktOne 2054 2054 11379 = crcFold pktOne 1027 3081 24701 := by
    rw [show (2054 : Nat) = 1027 + 1027 from rfl, crcFold_add, h3]
  rw [e1, e2, e3, h4]

/-- Including the byte at `length - 4` (the last block's EOH, `0xEE`)
in the CRC changes its value away from the stored one: the CRC the
decoder would need over `[0, length - 3)` does not match the trailing
field. -/
theorem pktOne_crc_mismatch_at_minus3 :
    crc16Range pktOne 4109 ≠ readU16 pktOne 4109 := by
  have hb : pktOne.data 4108 = 0xEE := by decide
  have hshift : crc16Range pktOne 4109 = crcByte 17848 0xEE := by
    rw [show (4109 : Nat) = 4108 + 1 from rfl, crc16Range_succ, pktOne_crc_value, hb]
  have hread : readU16 pktOne 4109 = 17848 := by
    have hz : zpLen 1 = 4112 := by decide
    have hlo := zp_data_crcLo 1 0x0500002A
    have hhi := zp_data_crcHi 1 0x0500002A (by omega)
    rw [hz] at hlo hhi
    norm_num at hlo hhi
    have hcrc : zpCrc 1 0x0500002A = 17848 := by
      have h5 := zp_crc_eq 1 0x0500002A (by omega)
      rw [hz] at h5
      norm_num at h5
      rw [← h5]
      exact pktOne_crc_value
    have hlo2 : pktOne.data 4109 = zpCrc 1 0x0500002A % 256 := hlo
    have hhi2 : pktOne.data 4110 = zpCrc 1 0x0500002A / 256 := hhi
    rw [readU16_eq]
    rw [show (4109 : Nat) + 1 = 4110 from rfl, hlo2, hhi2, hcrc]
  rw [hshift, hread]
  decide

/-! ### Claim theorems -/


theorem parse_pktOne : parse_histogram_packet pktOne = .ok (zpResult 1 0x0500002A) :=
  parse_pktOne_at pktOne (by decide) fun i _ => rfl

theorem parse_pktOneZero : parse_histogram_packet pktOneZero = .ok (zpResult 1 0) :=
  parse_zp 1 0 (by omega) (by omega) (by norm_num) pktOneZero (by decide) fun i _ => rfl

theorem parse_pktEight : parse_histogram_packet pktEight = .ok (zpResult 8 0) :=
  parse_zp 8 0 (by omega) (by omega) (by norm_num) pktEight (by decide) fun i _ => rfl

/-- C1 (counterexample): the claim's CRC range `[0, length-3)` is wrong.
The reference single-block packet is accepted by the decoder, yet the
CRC16 over `[0, length-3)` of it does not match the trailing u16. -/
theorem C1_crc_range_counterexample :
    parse_histogram_packet pktOne = .ok (zpResult 1 0x0500002A) ∧
    crc16Range pktOne (readU32 pktOne 2 - 3) ≠ readU16 pktOne (readU32 pktOne 2 - 3) := by
  refine ⟨parse_pktOne, ?_⟩
  rw [show readU32 pktOne 2 = 4112 from by decide]
  show crc16Range pktOne 4109 ≠ readU16 pktOne 4109
  exact pktOne_crc_mismatch_at_minus3

/-- C1 (amended): for every buffer the decoder accepts, the CRC16
(CCITT/XMODEM, init 0xFFFF) over `[0, length-4)` — header and payload up
to but excluding the last payload byte, the 2-byte CRC field and the EOF
byte — equals the trailing little-endian u16 at `length-3`, and the byte
at `length-1` is the EOF marker 0xDD. -/
theorem C1_crc_range_amended (b : ByteBuf) (res : PacketResult)
    (h : parse_histogram_packet b = .ok res) :
    crc16Range b (readU32 b 2 - 4) = readU16 b (readU32 b 2 - 3) ∧
    b.data (readU32 b 2 - 1) = EOFByte := by
  obtain ⟨hc, -, -, heof, hcrc⟩ := parse_ok_inv b res h
  rw [← hc]
  exact ⟨hcrc, heof⟩

/-- C1 (witness): the amended theorem applied to the accepted reference
packet. -/
theorem C1_crc_range_amended_witness :
    parse_histogram_packet pktOne = .ok (zpResult 1 0x0500002A) ∧
    (crc16Range pktOne (readU32 pktOne 2 - 4) = readU16 pktOne (readU32 pktOne 2 - 3) ∧
      pktOne.data (readU32 pktOne 2 - 1) = EOFByte) :=
  ⟨parse_pktOne, C1_crc_range_amended pktOne (zpResult 1 0x0500002A) parse_pktOne⟩

/-- C2: the claim that every hardware transaction releases its lock on
every exit path fails on the code.  A failing laser-power write returns
`False` with `_console_mutex` still held (depth 1), and a configuration
job whose register step fails ends with the left sensor mutex still held;
the success paths release both locks (depth 0). -/
theorem C2_lock_release_on_error_paths :
    set_laser_power_from_config [false] = (false, 1) ∧
    set_laser_power_from_config [true, true] = (true, 0) ∧
    lockDepth .left (configureRun 5 0
      (fun s p r => if s = Side.left ∧ p = 2 ∧ r = true then false else true)
      (fun _ => false)) = 1 ∧
    lockDepth .left (configureRun 5 0 (fun _ _ _ => true) (fun _ => false)) = 0 := by
  decide

/-- C3 (counterexample): for leftMask=1, rightMask=0 the emitted progress
values are `[12, 20]`; the first value after one completed step is 12, not
the claimed fraction `1 / (2·popcount(1))` = 1/2. -/
theorem C3_progress_fraction_counterexample :
    progressValues (configureRun 1 0 (fun _ _ _ => true) (fun _ => false)) = [12, 20] ∧
    ((12 : ℚ) ≠ 1 / (2 * 1)) := by
  refine ⟨by decide, by norm_num⟩

/-- C3 (amended): for every configuration job, the progress value
reported after `k+1` completed steps equals
`5 + 15·(k+1) / (2·popcount(L) + 2·popcount(R))` (the value of
`int(5 + (done/total)*15)`), the completed fraction scaled into the
5..20 band. -/
theorem C3_progress_value_amended (L R : Nat) (stepOk : Side → Nat → Bool → Bool)
    (stopAt : Nat → Bool) (k : Nat)
    (hk : k < (progressValues (configureRun L R stepOk stopAt)).length) :
    (progressValues (configureRun L R stepOk stopAt)).getD k 0 =
      5 + 15 * (k + 1) /
        (2 * (maskPositions L).length + 2 * (maskPositions R).length) := by
  unfold configureRun at hk ⊢
  by_cases hempty : maskPositions L = [] ∧ maskPositions R = []
  · rw [if_pos hempty] at hk
    simp [progressValues] at hk
  · rw [if_neg hempty] at hk ⊢
    obtain ⟨m, hm⟩ := progressValues_cfgTasks stepOk stopAt
      (((maskPositions L).map (fun p => (Side.left, p)) ++
        (maskPositions R).map fun p => (Side.right, p)).length * 2)
      (((maskPositions L).map (fun p => (Side.left, p)) ++
        (maskPositions R).map fun p => (Side.right, p))) 0 0
    rw [hm] at hk ⊢
    simp only [List.length_map, List.length_append] at hk ⊢
    rw [List.getD_eq_getElem _ _ (by simpa using hk)]
    simp [progressValue]
    rw [show ((maskPositions L).length + (maskPositions R).length) * 2 =
      2 * (maskPositions L).length + 2 * (maskPositions R).length by ring,
      Nat.add_comm 1 k]

/-- C3 (witness): the amended theorem applied to leftMask=5, rightMask=0
at the first progress emission (value 8). -/
theorem C3_progress_value_amended_witness :
    0 < (progressValues (configureRun 5 0 (fun _ _ _ => true) (fun _ => false))).length ∧
    (progressValues (configureRun 5 0 (fun _ _ _ => true) (fun _ => false))).getD 0 0 =
      5 + 15 * (0 + 1) / (2 * (maskPositions 5).length + 2 * (maskPositions 0).length) :=
  ⟨by decide, C3_progress_value_amended 5 0 (fun _ _ _ => true) (fun _ => false) 0 (by decide)⟩

/-- C4 (counterexample): a stream [valid packet][7 garbage bytes][valid
1-block packet] does not decode to the rows of both packets — the resync
signature `AA 00 41` never matches the second packet's header (length low
byte 0x10), so only the first packet's rows are emitted. -/
theorem C4_resync_counterexample :
    parse_histogram_packet pktOne = .ok (zpResult 1 0x0500002A) ∧
    parse_histogram_packet pktOneZero = .ok (zpResult 1 0) ∧
    parseStreamRows streamBad ≠
      packetRows (zpResult 1 0x0500002A) ++ packetRows (zpResult 1 0) := by
  refine ⟨parse_pktOne, parse_pktOneZero, ?_⟩
  rw [streamBad_rows]
  intro h
  have hlen := congrArg List.length h
  simp [packetRows, zpResult, zpBlocks] at hlen

/-- C4 (amended): on [pktOne][7 zero bytes][pktEight] the decoder emits
exactly the two packets' rows and zero spurious rows (pktEight's length
32833 = 0x8041 makes its header match the resync signature), while on
[pktOne][7 zero bytes][pktOneZero] it emits exactly the first packet's
rows and stalls waiting for more input. -/
theorem C4_resync_amended :
    parse_histogram_packet pktEight = .ok (zpResult 8 0) ∧
    parseStreamRows streamGood =
      packetRows (zpResult 1 0x0500002A) ++ packetRows (zpResult 8 0) ∧
    parseStreamRows streamBad = packetRows (zpResult 1 0x0500002A) :=
  ⟨parse_pktEight, streamGood_rows, streamBad_rows⟩

/-- C5: decoding is total — every buffer either decodes or yields one of
the nine named `ValueError` messages, no other exception escaping — and
every row the streaming loop emits comes from an offset whose parse
succeeded, whose CRC (over `[0, length-4)`) therefore validated. -/
theorem C5_decode_errors_and_row_provenance :
    (∀ b : ByteBuf, (∃ r, parse_histogram_packet b = .ok r) ∨
      ∃ e, parse_histogram_packet b = .error e ∧ e ∈ errorMessages) ∧
    (∀ (buf : ByteBuf) (fuel off : Nat) (row : Row), row ∈ (drainLoop buf fuel off).1 →
      ∃ (o : Nat) (r : PacketResult), parse_histogram_packet (byteDrop buf o) = .ok r ∧
        crc16Range (byteDrop buf o) (r.consumed - 4) =
          readU16 (byteDrop buf o) (r.consumed - 3) ∧
        row ∈ packetRows r) := by
  refine ⟨parse_total, ?_⟩
  intro buf fuel off row hrow
  obtain ⟨o, r, hok, hmem⟩ := drain_rows_from_ok buf fuel off row hrow
  obtain ⟨-, -, -, -, hcrc⟩ := parse_ok_inv _ _ hok
  exact ⟨o, r, hok, hcrc, hmem⟩

/-- The single row `pktOne` decodes to. -/
def c5row : Row := (packetRows (zpResult 1 0x0500002A)).getD 0 ⟨0, 0, 0, [], 0, 0⟩

/-- C5 (witness): the provenance conjunct applied to the reference
single-packet stream and its single row. -/
theorem C5_decode_errors_and_row_provenance_witness :
    c5row ∈ (drainLoop pktOne (4112 + 1) 0).1 ∧
    ∃ (o : Nat) (r : PacketResult), parse_histogram_packet (byteDrop pktOne o) = .ok r ∧
      crc16Range (byteDrop pktOne o) (r.consumed - 4) =
        readU16 (byteDrop pktOne o) (r.consumed - 3) ∧
      c5row ∈ packetRows r := by
  have hmem : c5row ∈ (drainLoop pktOne (4112 + 1) 0).1 := by
    rw [pktOne_drain]
    show (packetRows (zpResult 1 0x0500002A)).getD 0 ⟨0, 0, 0, [], 0, 0⟩ ∈
      packetRows (zpResult 1 0x0500002A)
    rw [List.getD_eq_getElem _ _ (by decide)]
    exact List.getElem_mem _
  exact ⟨hmem, C5_decode_errors_and_row_provenance.2 pktOne (4112 + 1) 0 c5row hmem⟩

/-- C6: the safety cutoff never fires.  A faulted read (SE=0x01) with the
flag clear performs `self.safetyFailure(True)` — a call on the `bool` the
pyqtProperty getter returns — so a TypeError escapes before `stopTrigger`,
no event fires and the flag stays clear; a still-faulted read with the
flag set returns silently; a clearing read with the flag set also raises.
This refutes the claimed fire-exactly-once behaviour and documents the
broken code path. -/
theorem C6_safety_cutoff_typeerror :
    readSafetyStatus false (some 1) (some 0) = (false, [], true) ∧
    readSafetyStatus true (some 1) (some 0) = (true, [], false) ∧
    readSafetyStatus true (some 0) (some 0) = (true, [], true) := by
  decide

/-- C7 (counterexample): connecting the right sensor after only the left
sensor changes the derived state (DISCONNECTED → SENSOR_CONNECTED),
refuting "right-sensor connectivity never independently changes the
derived state". -/
theorem C7_right_sensor_counterexample :
    update_state (on_connected (on_connected initialFlags .sensorLeft) .sensorRight) ≠
      update_state (on_connected initialFlags .sensorLeft) := by
  decide

/-- C7 (amended): the three scenario transitions hold (console→left ⇒
READY; disconnect left ⇒ CONSOLE_CONNECTED; right alone ⇒ DISCONNECTED);
right-sensor connectivity never changes the derived state while the
console is connected, nor while the left sensor is disconnected; with the
console absent and the left sensor connected it selects between
SENSOR_CONNECTED (right present) and DISCONNECTED (right absent). -/
theorem C7_connection_state_amended :
    update_state (on_connected (on_connected initialFlags .console) .sensorLeft) = READY ∧
    update_state (on_disconnected
      (on_connected (on_connected initialFlags .console) .sensorLeft) .sensorLeft) =
      CONSOLE_CONNECTED ∧
    update_state (on_connected initialFlags .sensorRight) = DISCONNECTED ∧
    (∀ (f : ConnFlags) (r : Bool), f.console = true →
      update_state { f with right := r } = update_state f) ∧
    (∀ (f : ConnFlags) (r : Bool), f.left = false →
      update_state { f with right := r } = update_state f) ∧
    (∀ ru : Bool, update_state ⟨false, true, true, ru⟩ = SENSOR_CONNECTED ∧
      update_state ⟨false, true, false, ru⟩ = DISCONNECTED) := by
  refine ⟨by decide, by decide, by decide, ?_, ?_, by decide⟩
  · rintro ⟨c, l, rr, run⟩ r hc
    subst hc
    cases l <;> cases rr <;> cases r <;> cases run <;> decide
  · rintro ⟨c, l, rr, run⟩ r hl
    subst hl
    cases c <;> cases rr <;> cases r <;> cases run <;> decide

/-- C7 (witness): the console-connected right-irrelevance conjunct applied
at concrete flags. -/
theorem C7_connection_state_amended_witness :
    (⟨true, true, false, false⟩ : ConnFlags).console = true ∧
    update_state { (⟨true, true, false, false⟩ : ConnFlags) with right := true } =
      update_state ⟨true, true, false, false⟩ :=
  ⟨rfl, C7_connection_state_amended.2.2.2.1 ⟨true, true, false, false⟩ true rfl⟩

/-- C8: for every decoded histogram block, the frame id equals the top
8 bits of the last histogram word and the stored last-bin value equals its
low 24 bits. -/
theorem C8_frame_id_unpacking (b : ByteBuf) (off cam : Nat) (rec : BlockRec)
    (h : parseBlock b off = .ok (cam, rec)) :
    rec.frameId = (readU32 b (off + 2 + 4 * (HISTO_SIZE_WORDS - 1)) >>> 24) &&& 0xFF ∧
    rec.hist.getD (HISTO_SIZE_WORDS - 1) 0 =
      readU32 b (off + 2 + 4 * (HISTO_SIZE_WORDS - 1)) &&& 0xFFFFFF := by
  unfold parseBlock at h
  split at h
  · simp at h
  split at h
  · simp at h
  injection h with h
  have hrec : rec = ⟨((List.range HISTO_SIZE_WORDS).map fun j =>
      readU32 b (off + 2 + 4 * j)).set (HISTO_SIZE_WORDS - 1)
        ((((List.range HISTO_SIZE_WORDS).map fun j =>
          readU32 b (off + 2 + 4 * j)).getD (HISTO_SIZE_WORDS - 1) 0) &&& 0xFFFFFF),
      ((((List.range HISTO_SIZE_WORDS).map fun j =>
        readU32 b (off + 2 + 4 * j)).getD (HISTO_SIZE_WORDS - 1) 0) >>> 24) &&& 0xFF,
      readU32 b (off + 2 + HISTO_BYTES)⟩ := (congrArg Prod.snd h).symm
  have hword : ((List.range HISTO_SIZE_WORDS).map fun j =>
      readU32 b (off + 2 + 4 * j)).getD (HISTO_SIZE_WORDS - 1) 0 =
      readU32 b (off + 2 + 4 * (HISTO_SIZE_WORDS - 1)) := by
    rw [List.getD_eq_getElem _ _ (by simp [HISTO_SIZE_WORDS])]
    simp
  subst hrec
  refine ⟨?_, ?_⟩
  · simp only [hword]
  · simp only [hword]
    rw [List.getD_eq_getElem _ _ (by simp [HISTO_SIZE_WORDS]), List.getElem_set]
    rw [if_pos rfl]

/-- C8 (witness): the block of the reference packet, whose last word is
0x0500002A, decodes to frame id 5 and last-bin value 42. -/
theorem C8_frame_id_unpacking_witness :
    parseBlock pktOne 6 = .ok (0, zpRec 0x0500002A) ∧
    (zpRec 0x0500002A).frameId = 5 ∧
    (zpRec 0x0500002A).hist.getD (HISTO_SIZE_WORDS - 1) 0 = 42 := by
  have hp : parseBlock pktOne 6 = .ok (0, zpRec 0x0500002A) := by
    have h := parseBlock_zp 1 0x0500002A (by omega) (by norm_num) pktOne
      (fun i _ => rfl) 0 (by omega)
    simpa using h
  refine ⟨hp, ?_, ?_⟩
  · rw [(C8_frame_id_unpacking pktOne 6 0 (zpRec 0x0500002A) hp).1]
    decide
  · rw [(C8_frame_id_unpacking pktOne 6 0 (zpRec 0x0500002A) hp).2]
    decide

/-- C9: a job's step attempts are all set left positions ascending then
all set right positions ascending, each position running program_fpga then
configure_registers; leftMask=0x05, rightMask=0x00 gives total_steps=4,
and when position 3's register step fails the full event trace shows
exactly 3 progress updates (8, 12, 16), then the terminal failure naming
the left side and position 3, with nothing attempted afterwards. -/
theorem C9_configure_job_scenario :
    (∀ L R : Nat, stepAttempts (configureRun L R (fun _ _ _ => true) (fun _ => false)) =
      ((maskPositions L).map (fun p => (Side.left, p)) ++
        (maskPositions R).map fun p => (Side.right, p)).flatMap
        fun sp => [(sp.1, sp.2 + 1, false), (sp.1, sp.2 + 1, true)]) ∧
    2 * (maskPositions 5).length + 2 * (maskPositions 0).length = 4 ∧
    configureRun 5 0 (fun s p r => if s = Side.left ∧ p = 2 ∧ r = true then false else true)
      (fun _ => false) =
    [.lock .left, .stepAttempt .left 1 false, .progress 8, .stepAttempt .left 1 true,
     .progress 12, .unlock .left, .lock .left, .stepAttempt .left 3 false, .progress 16,
     .stepAttempt .left 3 true, .finished false (.registersFailed .left 3)] := by
  refine ⟨?_, by decide, by decide⟩
  intro L R
  simp only [configureRun]
  by_cases hempty : maskPositions L = [] ∧ maskPositions R = []
  · rw [if_pos hempty]
    simp [stepAttempts, hempty.1, hempty.2]
  · rw [if_neg hempty]
    exact stepAttempts_cfgTasks _ _ 0 0

/-- C10: after `setSubjectId v` with non-empty `v` the stored subject id
is `"ow"` followed by the uppercased alphanumerics of `v` (a leading
`"ow"` stripped first), every character after the prefix alphanumeric
and not an ASCII lowercase letter; an empty `v` leaves the store
unchanged; the change notification is emitted iff the stored value
changed. -/
theorem C10_subject_id_normalization (stored v : List Char) :
    ((setSubjectId stored v).2 = true ↔ (setSubjectId stored v).1 ≠ stored) ∧
    (v = [] → (setSubjectId stored v).1 = stored) ∧
    (v ≠ [] →
      (setSubjectId stored v).1 = 'o' :: 'w' :: subjectNormalize v ∧
      ∀ c ∈ (setSubjectId stored v).1.drop 2,
        pyIsAlnum c = true ∧ ¬('a' ≤ c ∧ c ≤ 'z')) := by
  refine ⟨?_, ?_, ?_⟩
  · unfold setSubjectId
    by_cases hv : v = []
    · simp [hv]
    · rw [if_neg hv]
      by_cases hne : 'o' :: 'w' :: subjectNormalize v ≠ stored
      · simp [hne]
      · rw [if_neg hne]
        simp
  · intro hv; simp [setSubjectId, hv]
  · intro hv
    have h1 : (setSubjectId stored v).1 = 'o' :: 'w' :: subjectNormalize v := by
      unfold setSubjectId
      rw [if_neg hv]
      by_cases hne : 'o' :: 'w' :: subjectNormalize v ≠ stored
      · simp [hne]
      · rw [if_neg hne]
        exact (not_ne_iff.1 hne).symm
    refine ⟨h1, ?_⟩
    rw [h1]
    intro c hc
    simp only [List.drop, subjectNormalize] at hc
    constructor
    · exact List.of_mem_filter hc
    · have hmf := List.mem_filter.1 hc
      obtain ⟨d, hd, rfl⟩ := List.mem_map.1 hmf.1
      exact pyUpperChar_not_lower d

/-- C10 (witness): the normalization conjunct applied to stored
`"ow1"` and input `"ab"`. -/
theorem C10_subject_id_normalization_witness :
    (['a', 'b'] : List Char) ≠ [] ∧
    ((setSubjectId ['o', 'w', '1'] ['a', 'b']).1 = 'o' :: 'w' :: subjectNormalize ['a', 'b'] ∧
      ∀ c ∈ (setSubjectId ['o', 'w', '1'] ['a', 'b']).1.drop 2,
        pyIsAlnum c = true ∧ ¬('a' ≤ c ∧ c ≤ 'z')) :=
  ⟨by decide, (C10_subject_id_normalization ['o', 'w', '1'] ['a', 'b']).2.2 (by decide)⟩

end OwBloodflow
